import Mathlib

/-!
Shallow embedding of the gameplay simulation core of the mm-3d-js-game
repository (a Babylon.js arena shooter).  Numbers are modelled by exact
rationals (and by reals where the source normalizes vectors, i.e. divides
by a Euclidean length); machine floats are idealized as exact arithmetic.
Entity object identity is modelled by natural-number ids; mutable stores
are modelled by explicit state passing.
-/

namespace MMGame

/-! ### Constants (src/src/utils/constants.ts) -/

def ARENA_SIZE : ℚ := 40
def PLAYER_SPEED : ℚ := 8
def PLAYER_HEALTH : ℤ := 10
def PROJECTILE_SPEED : ℚ := 30
def PROJECTILE_LIFETIME : ℚ := 2
def PROJECTILE_FIRE_RATE : ℚ := 1/4
def ALIEN_BASE_SPEED : ℚ := 3
def ALIEN_SPEED_INCREMENT : ℚ := 1/2
def ALIEN_HEALTH : ℤ := 1
def SPAWN_RADIUS : ℚ := 35
def WAVE_DELAY : ℚ := 2

/-- One entry of the WAVES table: aliens per wave and spawn interval. -/
structure WaveConfig where
  count : ℕ
  interval : ℚ
deriving DecidableEq

def WAVES : List WaveConfig :=
  [⟨5, 3/2⟩, ⟨8, 6/5⟩, ⟨12, 1⟩, ⟨15, 9/10⟩, ⟨20, 4/5⟩]

def HIT_DISTANCE_PROJECTILE_ALIEN : ℚ := 3/2
def HIT_DISTANCE_ALIEN_PLAYER : ℚ := 2
def POINTS_PER_ALIEN : ℤ := 10

/-! ### Vectors (Babylon.js Vector2 / Vector3, exact-rational idealization) -/

structure Vec2 where
  x : ℚ
  y : ℚ
deriving DecidableEq

structure Vec3 where
  x : ℚ
  y : ℚ
  z : ℚ
deriving DecidableEq

def Vec3.zero : Vec3 := ⟨0, 0, 0⟩

def Vec3.add (a b : Vec3) : Vec3 := ⟨a.x + b.x, a.y + b.y, a.z + b.z⟩

def Vec3.sub (a b : Vec3) : Vec3 := ⟨a.x - b.x, a.y - b.y, a.z - b.z⟩

def Vec3.scale (a : Vec3) (s : ℚ) : Vec3 := ⟨a.x * s, a.y * s, a.z * s⟩

/-- Squared Euclidean distance between two points.  The source compares
Vector3.Distance(p, q) (the square root of this) against a nonnegative
threshold d; since the square root is monotone, distance < d is encoded
exactly as dist2 < d^2. -/
def Vec3.dist2 (a b : Vec3) : ℚ :=
  (a.x - b.x) ^ 2 + (a.y - b.y) ^ 2 + (a.z - b.z) ^ 2

/-- clamp from src/src/utils/helpers.ts: Math.max(min, Math.min(max, value)). -/
def clamp (value lo hi : ℚ) : ℚ := max lo (min hi value)

/-! ### Player (src/src/entities/player.ts) -/

structure Player where
  pos : Vec3
  health : ℤ
  alive : Bool
  lastFireTime : ℚ
deriving DecidableEq

/-- Constructor state: position Vector3.Zero by default, health PLAYER_HEALTH,
alive, lastFireTime 0. -/
def Player.init : Player := ⟨Vec3.zero, PLAYER_HEALTH, true, 0⟩

/-- Player.updateMovement.  The source guard is movement.length() === 0;
the Euclidean length of a 2D vector is zero exactly when the sum of the
squared components is zero, which is how the guard is encoded here. -/
def Player.updateMovement (p : Player) (deltaTime : ℚ) (movement : Vec2) : Player :=
  if movement.x ^ 2 + movement.y ^ 2 = 0 then p
  else
    let moveDirection : Vec3 := ⟨movement.x, 0, movement.y⟩
    let velocity := moveDirection.scale (PLAYER_SPEED * deltaTime)
    let pos1 := p.pos.add velocity
    { p with pos := ⟨clamp pos1.x (-ARENA_SIZE) ARENA_SIZE, pos1.y,
                     clamp pos1.z (-ARENA_SIZE) ARENA_SIZE⟩ }

def Player.canFire (p : Player) (currentTime fireRate : ℚ) : Bool :=
  decide (currentTime - p.lastFireTime ≥ fireRate)

def Player.recordFire (p : Player) (currentTime : ℚ) : Player :=
  { p with lastFireTime := currentTime }

def Player.takeDamage (p : Player) (amount : ℤ) : Player :=
  let h := p.health - amount
  if h ≤ 0 then { p with health := 0, alive := false }
  else { p with health := h }

/-! ### Alien (src/src/entities/alien.ts), exact-rational part.
The movement update divides by a Euclidean length, so it lives in the
real-valued model further below; damage and liveness are exact. -/

structure Alien where
  pos : Vec3
  speed : ℚ
  targetPosition : Vec3
  health : ℤ
  alive : Bool
deriving DecidableEq

def Alien.takeDamage (a : Alien) (amount : ℤ) : Alien :=
  let h := a.health - amount
  { a with health := h, alive := if h ≤ 0 then false else a.alive }

def Alien.setTarget (a : Alien) (target : Vec3) : Alien :=
  { a with targetPosition := target }

/-! ### Projectile (src/src/entities/projectile.ts), exact-rational part.
The stored direction is whatever the constructor normalized; the update
itself performs no normalization, so it is exact.  The id field stands in
for JavaScript object identity. -/

structure Projectile where
  id : ℕ
  pos : Vec3
  direction : Vec3
  lifetime : ℚ
  alive : Bool
deriving DecidableEq

def Projectile.update (p : Projectile) (deltaTime : ℚ) : Projectile :=
  let pos1 := p.pos.add (p.direction.scale (PROJECTILE_SPEED * deltaTime))
  let life1 := p.lifetime + deltaTime
  let alive1 := if life1 > PROJECTILE_LIFETIME then false else p.alive
  let alive2 :=
    if |pos1.x| > ARENA_SIZE + 10 ∨ |pos1.z| > ARENA_SIZE + 10 then false
    else alive1
  { p with pos := pos1, lifetime := life1, alive := alive2 }

def Projectile.kill (p : Projectile) : Projectile := { p with alive := false }

/-- A sequence of per-frame Projectile.update calls. -/
def Projectile.runUpdates : Projectile → List ℚ → Projectile
  | p, [] => p
  | p, d :: ds => Projectile.runUpdates (p.update d) ds

/-! ### Collision System (src/src/systems/collision.ts) -/

structure CollisionResult where
  projectileHits : List (Projectile × Alien)
  alienPlayerHits : List Alien
deriving DecidableEq

/-- Inner-loop body condition: the source skips non-alive aliens with
continue and otherwise tests Vector3.Distance < HIT_DISTANCE_PROJECTILE_ALIEN;
both checks combine into this conjunction. -/
def projAlienHit (projectilePos : Vec3) (alien : Alien) : Bool :=
  alien.alive && decide (Vec3.dist2 projectilePos alien.pos < HIT_DISTANCE_PROJECTILE_ALIEN ^ 2)

/-- The inner for-loop over aliens with break: the first alien that is
alive and within hit distance is returned and scanning stops. -/
def findFirstHit (projectilePos : Vec3) : List Alien → Option Alien
  | [] => none
  | alien :: rest =>
    if projAlienHit projectilePos alien then some alien
    else findFirstHit projectilePos rest

def alienPlayerHit (playerPos : Vec3) (alien : Alien) : Bool :=
  alien.alive && decide (Vec3.dist2 playerPos alien.pos < HIT_DISTANCE_ALIEN_PLAYER ^ 2)

/-- CollisionSystem.checkCollisions: for each live projectile record at most
one hit via the inner scan; independently record every live alien within
hit distance of the player. -/
def checkCollisions (projectiles : List Projectile) (aliens : List Alien)
    (player : Player) : CollisionResult :=
  { projectileHits :=
      projectiles.filterMap (fun projectile =>
        if projectile.alive then
          (findFirstHit projectile.pos aliens).map (fun alien => (projectile, alien))
        else none)
    alienPlayerHits := aliens.filter (fun alien => alienPlayerHit player.pos alien) }

/-! ### Scoring System (src/src/systems/scoring.ts) -/

structure ScoringSystem where
  score : ℤ
  currentWave : ℕ
deriving DecidableEq

def ScoringSystem.init : ScoringSystem := ⟨0, 0⟩

def ScoringSystem.addPoints (s : ScoringSystem) (points : ℤ) : ScoringSystem :=
  { s with score := s.score + points }

def ScoringSystem.addAlienKillPoints (s : ScoringSystem) : ScoringSystem :=
  s.addPoints POINTS_PER_ALIEN

def ScoringSystem.nextWave (s : ScoringSystem) : ScoringSystem :=
  { s with currentWave := s.currentWave + 1 }

def ScoringSystem.isAllWavesComplete (s : ScoringSystem) : Bool :=
  decide (s.currentWave ≥ WAVES.length)

def ScoringSystem.reset (_s : ScoringSystem) : ScoringSystem := ⟨0, 0⟩

/-! ### Collision-outcome step of Game.updatePlaying (src/src/game.ts 190-203).
The hit lists reference entities by object identity; aliens and projectiles
live in mutable stores keyed here by id, so several hits may reference (and
mutate) the same alien. -/

structure OutcomeState where
  aliens : ℕ → Alien
  projectiles : ℕ → Projectile
  scoring : ScoringSystem
  player : Player

/-- One iteration of the loop over collisionResult.projectileHits: kill
the projectile, damage the alien by 1, and add kill points when the alien
is not alive after the damage.  A hit is a (projectile id, alien id) pair. -/
def projectileHitStep (st : OutcomeState) (hit : ℕ × ℕ) : OutcomeState :=
  let damaged := (st.aliens hit.2).takeDamage 1
  { st with
    projectiles := Function.update st.projectiles hit.1 ((st.projectiles hit.1).kill)
    aliens := Function.update st.aliens hit.2 damaged
    scoring := if damaged.alive then st.scoring else st.scoring.addAlienKillPoints }

def handleProjectileHits : List (ℕ × ℕ) → OutcomeState → OutcomeState
  | [], st => st
  | hit :: rest, st => handleProjectileHits rest (projectileHitStep st hit)

/-- One iteration of the loop over collisionResult.alienPlayerHits: the
alien and the player each take 1 damage; the score is never touched. -/
def alienPlayerHitStep (st : OutcomeState) (aid : ℕ) : OutcomeState :=
  { st with
    aliens := Function.update st.aliens aid ((st.aliens aid).takeDamage 1)
    player := st.player.takeDamage 1 }

def handleAlienPlayerHits : List ℕ → OutcomeState → OutcomeState
  | [], st => st
  | aid :: rest, st => handleAlienPlayerHits rest (alienPlayerHitStep st aid)

/-- Both outcome loops in source order. -/
def handleCollisions (projHits : List (ℕ × ℕ)) (apHits : List ℕ)
    (st : OutcomeState) : OutcomeState :=
  handleAlienPlayerHits apHits (handleProjectileHits projHits st)

/-! ### Entity Manager (src/src/entity-manager.ts), removal fragment.
Entities are identified by id; the disposed field logs every dispose()
call in order. -/

structure EntityManager where
  entities : List ℕ
  disposed : List ℕ
deriving DecidableEq

/-- EntityManager.remove: indexOf finds the first occurrence (or none),
splice removes exactly that occurrence, and dispose runs only when the
entity was found.  indexOf !== -1 is membership; splice at the first
occurrence index is List.erase. -/
def EntityManager.remove (m : EntityManager) (e : ℕ) : EntityManager :=
  if e ∈ m.entities then
    { entities := m.entities.erase e, disposed := m.disposed ++ [e] }
  else m

/-! ### Spawner System (src/src/systems/spawner.ts).
The entity manager interaction is abstracted: update reports whether
spawnAlien ran (the spawned alien's random position is presentation-side
input and out of scope), and isWaveComplete receives the entity manager's
current live-alien count as an argument. -/

structure SpawnerSystem where
  currentWave : ℕ
  aliensToSpawn : ℕ
  aliensSpawned : ℕ
  spawnTimer : ℚ
  waveDelayTimer : ℚ
  waveActive : Bool
  waveComplete : Bool
deriving DecidableEq

def SpawnerSystem.init : SpawnerSystem := ⟨0, 0, 0, 0, 0, false, false⟩

def SpawnerSystem.startWave (s : SpawnerSystem) (waveNumber : ℕ) : SpawnerSystem :=
  if h : waveNumber < WAVES.length then
    { currentWave := waveNumber
      aliensToSpawn := (WAVES.get ⟨waveNumber, h⟩).count
      aliensSpawned := 0
      spawnTimer := 0
      waveDelayTimer := 0
      waveActive := true
      waveComplete := false }
  else s

/-- SpawnerSystem.update; the Bool reports whether an alien was spawned.
WAVES[this.currentWave] is total in the source only on reachable states
(currentWave is always in range while waveActive); getD supplies a dummy
entry to keep the Lean function total. -/
def SpawnerSystem.update (s : SpawnerSystem) (deltaTime : ℚ) : SpawnerSystem × Bool :=
  if s.waveActive then
    let spawnTimer1 := s.spawnTimer + deltaTime
    let spawnInterval := (WAVES.getD s.currentWave ⟨0, 0⟩).interval
    let step :=
      if spawnTimer1 ≥ spawnInterval ∧ s.aliensSpawned < s.aliensToSpawn then
        ({ s with spawnTimer := 0, aliensSpawned := s.aliensSpawned + 1 }, true)
      else ({ s with spawnTimer := spawnTimer1 }, false)
    if step.1.aliensSpawned ≥ step.1.aliensToSpawn then
      ({ step.1 with waveActive := false }, step.2)
    else step
  else (s, false)

/-- SpawnerSystem.isWaveComplete, with the entity manager's current number
of live aliens passed in; returns the result and the (possibly cached)
state. -/
def SpawnerSystem.isWaveComplete (s : SpawnerSystem) (alienCount : ℕ) :
    Bool × SpawnerSystem :=
  if s.waveActive then (false, s)
  else if s.waveComplete then (true, s)
  else if alienCount = 0 ∧ s.aliensSpawned > 0 then (true, { s with waveComplete := true })
  else (false, s)

def SpawnerSystem.updateWaveDelay (s : SpawnerSystem) (deltaTime : ℚ) :
    Bool × SpawnerSystem :=
  let s1 := { s with waveDelayTimer := s.waveDelayTimer + deltaTime }
  (decide (s1.waveDelayTimer ≥ WAVE_DELAY), s1)

def SpawnerSystem.reset (_s : SpawnerSystem) : SpawnerSystem :=
  ⟨0, 0, 0, 0, 0, false, false⟩

/-- The spawner calls the PLAYING loop can make between startWave/reset:
advance the spawner, advance the inter-wave delay, or query completion
(with the current live-alien count). -/
inductive SpawnerOp where
  | update (deltaTime : ℚ)
  | waveDelay (deltaTime : ℚ)
  | query (alienCount : ℕ)

def SpawnerSystem.runOp (s : SpawnerSystem) : SpawnerOp → SpawnerSystem
  | .update dt => (s.update dt).1
  | .waveDelay dt => (s.updateWaveDelay dt).2
  | .query n => (s.isWaveComplete n).2

def SpawnerSystem.run (s : SpawnerSystem) : List SpawnerOp → SpawnerSystem
  | [] => s
  | op :: ops => (s.runOp op).run ops

/-! ### Real-valued model for the normalizing entity code.
Alien.update and the Projectile constructor divide by a Euclidean length
(Babylon.js normalize), so they are embedded over the reals. -/

def ARENA_SIZE_R : ℝ := 40
def PROJECTILE_SPEED_R : ℝ := 30
def PROJECTILE_LIFETIME_R : ℝ := 2

@[ext]
structure Vec3R where
  x : ℝ
  y : ℝ
  z : ℝ

def Vec3R.zero : Vec3R := ⟨0, 0, 0⟩

def Vec3R.add (a b : Vec3R) : Vec3R := ⟨a.x + b.x, a.y + b.y, a.z + b.z⟩

def Vec3R.sub (a b : Vec3R) : Vec3R := ⟨a.x - b.x, a.y - b.y, a.z - b.z⟩

def Vec3R.scale (a : Vec3R) (s : ℝ) : Vec3R := ⟨a.x * s, a.y * s, a.z * s⟩

/-- Babylon.js Vector3.length: the Euclidean norm. -/
noncomputable def Vec3R.length (v : Vec3R) : ℝ :=
  Real.sqrt (v.x ^ 2 + v.y ^ 2 + v.z ^ 2)

section
open Classical

/-- Babylon.js Vector3.normalize: a zero-length vector is left unchanged,
otherwise the vector is scaled by the reciprocal of its length. -/
noncomputable def Vec3R.normalize (v : Vec3R) : Vec3R :=
  if v.length = 0 then v else v.scale (1 / v.length)

/-! ### Alien.update (src/src/entities/alien.ts 46-56) over the reals. -/

structure AlienR where
  pos : Vec3R
  speed : ℝ
  targetPosition : Vec3R

/-- Alien.update: move toward the target at the alien's speed while the
distance to the target exceeds 0.1; otherwise do nothing. -/
noncomputable def AlienR.update (a : AlienR) (deltaTime : ℝ) : AlienR :=
  let direction := a.targetPosition.sub a.pos
  let distance := direction.length
  if distance > 1/10 then
    let normalized := direction.normalize
    let velocity := normalized.scale (a.speed * deltaTime)
    { a with pos := a.pos.add velocity }
  else a

/-! ### Projectile constructor and update (src/src/entities/projectile.ts)
over the reals. -/

structure ProjectileR where
  pos : Vec3R
  direction : Vec3R
  lifetime : ℝ
  alive : Bool

/-- The Projectile constructor: stores the normalized direction, clones the
spawn position, and starts with lifetime 0, alive. -/
noncomputable def ProjectileR.create (position direction : Vec3R) : ProjectileR :=
  ⟨position, direction.normalize, 0, true⟩

noncomputable def ProjectileR.update (p : ProjectileR) (deltaTime : ℝ) : ProjectileR :=
  let pos1 := p.pos.add (p.direction.scale (PROJECTILE_SPEED_R * deltaTime))
  let life1 := p.lifetime + deltaTime
  let alive1 := if life1 > PROJECTILE_LIFETIME_R then false else p.alive
  let alive2 :=
    if |pos1.x| > ARENA_SIZE_R + 10 ∨ |pos1.z| > ARENA_SIZE_R + 10 then false
    else alive1
  ⟨pos1, p.direction, life1, alive2⟩

end

/-- A concrete collision-outcome store: every alien id maps to a live alien
with the configured ALIEN_HEALTH (1 hit point), every projectile id to a
live projectile, fresh scoring and player. -/
def twoHitsStore : OutcomeState :=
  { aliens := fun _ => ⟨Vec3.zero, ALIEN_BASE_SPEED, Vec3.zero, ALIEN_HEALTH, true⟩
    projectiles := fun i => ⟨i, Vec3.zero, Vec3.zero, 0, true⟩
    scoring := ScoringSystem.init
    player := Player.init }

/-! ## Theorems -/

/-- Clamping into a symmetric interval lands inside the interval. -/
theorem abs_clamp_le (v a : ℚ) (ha : 0 ≤ a) : |clamp v (-a) a| ≤ a := by
  rw [abs_le]
  unfold clamp
  exact ⟨le_max_left _ _, max_le (by linarith) (min_le_left _ _)⟩

/-- C5: for every player state whose horizontal coordinates lie in
[-ARENA_SIZE, ARENA_SIZE], every deltaTime and every 2D movement vector,
after Player.updateMovement both horizontal coordinates still lie in that
interval; the zero-movement branch is a no-op and keeps them there too. -/
theorem updateMovement_stays_in_bounds :
    ∀ (p : Player) (deltaTime : ℚ) (movement : Vec2),
      |p.pos.x| ≤ ARENA_SIZE → |p.pos.z| ≤ ARENA_SIZE →
      |(p.updateMovement deltaTime movement).pos.x| ≤ ARENA_SIZE ∧
        |(p.updateMovement deltaTime movement).pos.z| ≤ ARENA_SIZE := by
  intro p dt mv hx hz
  rw [Player.updateMovement]
  split
  · exact ⟨hx, hz⟩
  · exact ⟨abs_clamp_le _ _ (by norm_num [ARENA_SIZE]),
      abs_clamp_le _ _ (by norm_num [ARENA_SIZE])⟩

theorem updateMovement_stays_in_bounds_witness :
    |Player.init.pos.x| ≤ ARENA_SIZE ∧ |Player.init.pos.z| ≤ ARENA_SIZE ∧
      (|(Player.init.updateMovement 1 ⟨1, 0⟩).pos.x| ≤ ARENA_SIZE ∧
        |(Player.init.updateMovement 1 ⟨1, 0⟩).pos.z| ≤ ARENA_SIZE) :=
  ⟨by decide, by decide,
    updateMovement_stays_in_bounds Player.init 1 ⟨1, 0⟩ (by decide) (by decide)⟩

/-- C7: Player.canFire returns true iff currentTime - lastFireTime is at
least the fire rate; with fireRate 1/4 and a shot recorded at t = 0,
canFire is false at t = 6/25 (0.24) and true at t = 1/4 (0.25). -/
theorem canFire_iff_cooldown :
    ∀ (p : Player) (currentTime fireRate : ℚ),
      (p.canFire currentTime fireRate = true ↔
        fireRate ≤ currentTime - p.lastFireTime)
      ∧ (p.recordFire 0).canFire (6/25) (1/4) = false
      ∧ (p.recordFire 0).canFire (1/4) (1/4) = true := by
  intro p t r
  refine ⟨?_, ?_, ?_⟩
  · simp [Player.canFire]
  · simp only [Player.canFire, Player.recordFire, decide_eq_false_iff_not]
    norm_num
  · simp only [Player.canFire, Player.recordFire, decide_eq_true_eq]
    norm_num

/-- C8 counterexample: an entity added twice (object identity 7) is removed
twice with two dispose calls, and the second remove is not a no-op, so
remove is not idempotent on such a collection. -/
theorem remove_twice_double_disposes :
    (((⟨[7, 7], []⟩ : EntityManager).remove 7).remove 7).disposed = [7, 7]
    ∧ (((⟨[7, 7], []⟩ : EntityManager).remove 7).remove 7).entities
        ≠ ((⟨[7, 7], []⟩ : EntityManager).remove 7).entities := by decide

/-- C8 (amended): removing an absent entity is a no-op without dispose;
and whenever the entity occurs at most once in the collection, removing it
twice leaves the state exactly as after the first removal, with dispose
invoked once when it was present and never when absent. -/
theorem remove_idempotent_of_no_duplicate :
    ∀ (m : EntityManager) (e : ℕ),
      (e ∉ m.entities → m.remove e = m)
      ∧ (m.entities.count e ≤ 1 →
          (m.remove e).remove e = m.remove e
          ∧ (e ∈ m.entities → (m.remove e).disposed = m.disposed ++ [e])
          ∧ (e ∉ m.entities → (m.remove e).disposed = m.disposed)) := by
  intro m e
  constructor
  · intro he
    simp [EntityManager.remove, he]
  · intro hc
    by_cases he : e ∈ m.entities
    · have hcount : m.entities.count e = 1 :=
        le_antisymm hc (List.count_pos_iff.mpr he)
      have hnotin : e ∉ m.entities.erase e := by
        intro hmem
        have hpos := List.count_pos_iff.mpr hmem
        rw [List.count_erase_self, hcount] at hpos
        omega
      refine ⟨?_, ?_, ?_⟩
      · simp [EntityManager.remove, he, hnotin]
      · intro _
        simp [EntityManager.remove, he]
      · intro hne
        exact absurd he hne
    · refine ⟨?_, ?_, ?_⟩
      · simp [EntityManager.remove, he]
      · intro hmem
        exact absurd hmem he
      · intro _
        simp [EntityManager.remove, he]

theorem remove_idempotent_of_no_duplicate_witness :
    ((7 : ℕ) ∉ (⟨[5], []⟩ : EntityManager).entities
      ∧ (⟨[5], []⟩ : EntityManager).remove 7 = ⟨[5], []⟩)
    ∧ ((⟨[7], []⟩ : EntityManager).entities.count 7 ≤ 1
      ∧ ((⟨[7], []⟩ : EntityManager).remove 7).remove 7
          = (⟨[7], []⟩ : EntityManager).remove 7) :=
  ⟨⟨by decide, (remove_idempotent_of_no_duplicate ⟨[5], []⟩ 7).1 (by decide)⟩,
    ⟨by decide, ((remove_idempotent_of_no_duplicate ⟨[7], []⟩ 7).2 (by decide)).1⟩⟩

/-- The inner scan returns exactly the first alien (in list order) that is
alive and within hit distance of the projectile. -/
theorem findFirstHit_eq_find (pos : Vec3) (aliens : List Alien) :
    findFirstHit pos aliens = aliens.find? (projAlienHit pos) := by
  induction aliens with
  | nil => rfl
  | cons a rest ih =>
    rw [findFirstHit, List.find?_cons]
    cases h : projAlienHit pos a with
    | true => simp [h]
    | false => simp [h, ih]

/-- Each list element yields at most one filterMap output, so the count of
outputs satisfying r is bounded by the count of inputs satisfying q as soon
as every produced output inherits the input's predicate value. -/
theorem countP_filterMap_le {α β : Type} (f : α → Option β) (q : α → Bool) (r : β → Bool)
    (hf : ∀ a b, f a = some b → r b = q a) (l : List α) :
    (l.filterMap f).countP r ≤ l.countP q := by
  induction l with
  | nil => simp
  | cons a rest ih =>
    rw [List.filterMap_cons, List.countP_cons]
    cases hfa : f a with
    | none => exact ih.trans (Nat.le_add_right _ _)
    | some b =>
      rw [List.countP_cons, hf a b hfa]
      exact Nat.add_le_add_right ih _

/-- C2: checkCollisions records, for each live projectile, exactly the hit
given by the first alive-and-in-range alien of the aliens list (none when
no alien is in range); therefore each projectile identity contributes at
most as many hits as it has occurrences, i.e. at most one hit per live
projectile; and with a single live projectile and two aliens both within
hit distance, exactly one hit is recorded, referencing the first alien. -/
theorem checkCollisions_one_hit_earliest_alien :
    ∀ (projectiles : List Projectile) (aliens : List Alien) (player : Player),
      ((checkCollisions projectiles aliens player).projectileHits
        = projectiles.filterMap (fun p =>
            if p.alive then
              (aliens.find? (projAlienHit p.pos)).map (fun a => (p, a))
            else none))
      ∧ (∀ i : ℕ,
          ((checkCollisions projectiles aliens player).projectileHits.countP
              (fun h => decide (h.1.id = i)))
            ≤ projectiles.countP (fun p => decide (p.id = i)))
      ∧ (∀ (p : Projectile) (a1 a2 : Alien),
          p.alive = true → a1.alive = true → a2.alive = true →
          Vec3.dist2 p.pos a1.pos < HIT_DISTANCE_PROJECTILE_ALIEN ^ 2 →
          Vec3.dist2 p.pos a2.pos < HIT_DISTANCE_PROJECTILE_ALIEN ^ 2 →
          (checkCollisions [p] [a1, a2] player).projectileHits = [(p, a1)]) := by
  intro projectiles aliens player
  refine ⟨?_, ?_, ?_⟩
  · unfold checkCollisions
    exact List.filterMap_congr (fun p _ => by rw [findFirstHit_eq_find])
  · intro i
    apply countP_filterMap_le
    intro p b hb
    beta_reduce at hb
    split at hb
    · cases hfind : findFirstHit p.pos aliens with
      | none => rw [hfind] at hb; simp at hb
      | some a =>
        rw [hfind] at hb
        cases hb
        rfl
    · simp at hb
  · intro p a1 a2 hp ha1 ha2 hd1 hd2
    simp [checkCollisions, findFirstHit, projAlienHit, hp, ha1, hd1]

theorem checkCollisions_one_hit_earliest_alien_witness :
    ((⟨0, Vec3.zero, Vec3.zero, 0, true⟩ : Projectile).alive = true
      ∧ (⟨⟨1, 0, 0⟩, 3, Vec3.zero, 1, true⟩ : Alien).alive = true
      ∧ (⟨⟨0, 0, 1⟩, 3, Vec3.zero, 1, true⟩ : Alien).alive = true
      ∧ Vec3.dist2 (⟨0, Vec3.zero, Vec3.zero, 0, true⟩ : Projectile).pos
          (⟨⟨1, 0, 0⟩, 3, Vec3.zero, 1, true⟩ : Alien).pos
          < HIT_DISTANCE_PROJECTILE_ALIEN ^ 2
      ∧ Vec3.dist2 (⟨0, Vec3.zero, Vec3.zero, 0, true⟩ : Projectile).pos
          (⟨⟨0, 0, 1⟩, 3, Vec3.zero, 1, true⟩ : Alien).pos
          < HIT_DISTANCE_PROJECTILE_ALIEN ^ 2)
    ∧ (checkCollisions [⟨0, Vec3.zero, Vec3.zero, 0, true⟩]
        [⟨⟨1, 0, 0⟩, 3, Vec3.zero, 1, true⟩, ⟨⟨0, 0, 1⟩, 3, Vec3.zero, 1, true⟩]
        Player.init).projectileHits
        = [(⟨0, Vec3.zero, Vec3.zero, 0, true⟩,
            ⟨⟨1, 0, 0⟩, 3, Vec3.zero, 1, true⟩)] :=
  ⟨⟨rfl, rfl, rfl,
      by norm_num [Vec3.dist2, Vec3.zero, HIT_DISTANCE_PROJECTILE_ALIEN],
      by norm_num [Vec3.dist2, Vec3.zero, HIT_DISTANCE_PROJECTILE_ALIEN]⟩,
    (checkCollisions_one_hit_earliest_alien [] [] Player.init).2.2
      ⟨0, Vec3.zero, Vec3.zero, 0, true⟩
      ⟨⟨1, 0, 0⟩, 3, Vec3.zero, 1, true⟩ ⟨⟨0, 0, 1⟩, 3, Vec3.zero, 1, true⟩
      rfl rfl rfl
      (by norm_num [Vec3.dist2, Vec3.zero, HIT_DISTANCE_PROJECTILE_ALIEN])
      (by norm_num [Vec3.dist2, Vec3.zero, HIT_DISTANCE_PROJECTILE_ALIEN])⟩

/-- A single Projectile.update leaves the projectile alive exactly when it
was alive, the accumulated lifetime does not strictly exceed the maximum,
and the moved position is within the extended bounds. -/
theorem update_alive_char (p : Projectile) (d : ℚ) :
    (p.update d).alive
      = (p.alive
         && !decide (p.lifetime + d > PROJECTILE_LIFETIME)
         && !decide (|(p.update d).pos.x| > ARENA_SIZE + 10
                     ∨ |(p.update d).pos.z| > ARENA_SIZE + 10)) := by
  have hpos : (p.update d).pos = p.pos.add (p.direction.scale (PROJECTILE_SPEED * d)) := rfl
  rw [hpos]
  simp only [Projectile.update]
  split_ifs with h1 h2
  · rw [decide_eq_true h1]
    simp
  · rw [decide_eq_true h2, decide_eq_false h1]
    simp
  · rw [decide_eq_false h1, decide_eq_false h2]
    simp

/-- If the deltas of a nonempty update sequence raise the accumulated
lifetime beyond the maximum, the projectile ends up not alive. -/
theorem runUpdates_dead_of_exceeded (ds : List ℚ) :
    ∀ (p : Projectile) (d : ℚ),
      PROJECTILE_LIFETIME < p.lifetime + d + ds.sum →
      (p.runUpdates (d :: ds)).alive = false := by
  induction ds with
  | nil =>
    intro p d hsum
    show (p.update d).alive = false
    rw [update_alive_char]
    simp only [List.sum_nil, add_zero] at hsum
    simp [hsum]
  | cons d' ds' ih =>
    intro p d hsum
    rw [Projectile.runUpdates]
    apply ih
    have hl : (p.update d).lifetime = p.lifetime + d := rfl
    rw [hl]
    simp only [List.sum_cons] at hsum
    linarith

/-- A live projectile stays alive through an update sequence of nonnegative
deltas whose total keeps the lifetime within the maximum, provided every
intermediate position stays inside the extended bounds. -/
theorem runUpdates_alive_of_ok (ds : List ℚ) :
    ∀ (p : Projectile), (∀ d ∈ ds, 0 ≤ d) → p.alive = true →
      p.lifetime + ds.sum ≤ PROJECTILE_LIFETIME →
      (∀ i ∈ List.range (ds.length + 1),
        |(p.runUpdates (ds.take i)).pos.x| ≤ ARENA_SIZE + 10
        ∧ |(p.runUpdates (ds.take i)).pos.z| ≤ ARENA_SIZE + 10) →
      (p.runUpdates ds).alive = true := by
  induction ds with
  | nil =>
    intro p _ ha _ _
    exact ha
  | cons d ds ih =>
    intro p hpos halive hlife hbound
    rw [Projectile.runUpdates]
    have hsum0 : 0 ≤ ds.sum :=
      List.sum_nonneg (fun x hx => hpos x (List.mem_cons_of_mem _ hx))
    have hd0 : 0 ≤ d := hpos d (List.mem_cons_self _ _)
    have hlife' : p.lifetime + d + ds.sum ≤ PROJECTILE_LIFETIME := by
      simp only [List.sum_cons] at hlife
      linarith
    have hb1 := hbound 1 (by simp)
    have hupd : p.runUpdates ((d :: ds).take 1) = p.update d := rfl
    rw [hupd] at hb1
    have halive' : (p.update d).alive = true := by
      rw [update_alive_char]
      have h1 : ¬ (p.lifetime + d > PROJECTILE_LIFETIME) := by
        push_neg
        linarith
      have h2 : ¬ (|(p.update d).pos.x| > ARENA_SIZE + 10
                   ∨ |(p.update d).pos.z| > ARENA_SIZE + 10) := by
        push_neg
        exact hb1
      simp [halive, h1, h2]
    refine ih (p.update d) (fun x hx => hpos x (List.mem_cons_of_mem _ hx)) halive' ?_ ?_
    · have hl : (p.update d).lifetime = p.lifetime + d := rfl
      rw [hl]
      linarith
    · intro i hi
      have hshift := hbound (i + 1)
        (by simp only [List.mem_range, List.length_cons] at hi ⊢; omega)
      have heq : p.runUpdates ((d :: ds).take (i + 1))
          = (p.update d).runUpdates (ds.take i) := rfl
      rw [heq] at hshift
      exact hshift

/-- C6: a projectile's liveness after an update is exactly liveness before,
conjoined with the lifetime staying at most the 2-second maximum and the
position staying inside the extended arena bounds (kill sets it false
unconditionally); consequently any update sequence with deltas summing to
2.01 seconds leaves it not alive, and any sequence of nonnegative deltas
summing to 1.99 seconds that never leaves the extended bounds (and with no
kill) leaves it alive. -/
theorem projectile_liveness :
    ∀ (p : Projectile) (deltaTime : ℚ) (deltas : List ℚ),
      ((p.update deltaTime).alive
        = (p.alive
           && !decide (p.lifetime + deltaTime > PROJECTILE_LIFETIME)
           && !decide (|(p.update deltaTime).pos.x| > ARENA_SIZE + 10
                       ∨ |(p.update deltaTime).pos.z| > ARENA_SIZE + 10)))
      ∧ (p.kill.alive = false)
      ∧ (deltas.sum = 201/100 → p.lifetime = 0 →
          (p.runUpdates deltas).alive = false)
      ∧ ((∀ d ∈ deltas, 0 ≤ d) → deltas.sum = 199/100 → p.lifetime = 0 →
          p.alive = true →
          (∀ i ∈ List.range (deltas.length + 1),
            |(p.runUpdates (deltas.take i)).pos.x| ≤ ARENA_SIZE + 10
            ∧ |(p.runUpdates (deltas.take i)).pos.z| ≤ ARENA_SIZE + 10) →
          (p.runUpdates deltas).alive = true) := by
  intro p deltaTime deltas
  refine ⟨update_alive_char p deltaTime, rfl, ?_, ?_⟩
  · intro hs hl
    cases deltas with
    | nil =>
      exfalso
      simp only [List.sum_nil] at hs
      norm_num at hs
    | cons d ds =>
      apply runUpdates_dead_of_exceeded
      have hds : d + ds.sum = 201/100 := by simpa using hs
      rw [hl]
      norm_num [PROJECTILE_LIFETIME]
      linarith
  · intro h0 hs hl ha hb
    refine runUpdates_alive_of_ok deltas p h0 ha ?_ hb
    rw [hl, hs]
    norm_num [PROJECTILE_LIFETIME]

theorem projectile_liveness_witness :
    (([201/100] : List ℚ).sum = 201/100
      ∧ (Projectile.runUpdates ⟨0, Vec3.zero, Vec3.zero, 0, true⟩ [201/100]).alive = false)
    ∧ ((∀ d ∈ ([199/100] : List ℚ), 0 ≤ d)
      ∧ ([199/100] : List ℚ).sum = 199/100
      ∧ (Projectile.runUpdates ⟨0, Vec3.zero, Vec3.zero, 0, true⟩ [199/100]).alive = true) := by
  have hsum1 : ([201/100] : List ℚ).sum = 201/100 := by simp
  have hsum2 : ([199/100] : List ℚ).sum = 199/100 := by simp
  have hmem : ∀ d ∈ ([199/100] : List ℚ), 0 ≤ d := by
    intro d hd
    rw [List.mem_singleton] at hd
    subst hd
    norm_num
  have hbounds : ∀ i ∈ List.range (([199/100] : List ℚ).length + 1),
      |(Projectile.runUpdates ⟨0, Vec3.zero, Vec3.zero, 0, true⟩
          (([199/100] : List ℚ).take i)).pos.x| ≤ ARENA_SIZE + 10
      ∧ |(Projectile.runUpdates ⟨0, Vec3.zero, Vec3.zero, 0, true⟩
          (([199/100] : List ℚ).take i)).pos.z| ≤ ARENA_SIZE + 10 := by
    intro i hi
    simp only [List.length_singleton, List.mem_range] at hi
    interval_cases i <;>
      norm_num [Projectile.runUpdates, Projectile.update, Vec3.add, Vec3.scale,
        Vec3.zero, ARENA_SIZE]
  exact ⟨⟨hsum1,
      (projectile_liveness ⟨0, Vec3.zero, Vec3.zero, 0, true⟩ 0 [201/100]).2.2.1 hsum1 rfl⟩,
    ⟨hmem, hsum2,
      (projectile_liveness ⟨0, Vec3.zero, Vec3.zero, 0, true⟩ 0 [199/100]).2.2.2
        hmem hsum2 rfl rfl hbounds⟩⟩

/-- C9: one SpawnerSystem.update call spawns at most one alien however
large deltaTime is: the spawned counter rises by exactly one (with the
spawn timer reset to zero, discarding surplus time) when a spawn fires and
is unchanged otherwise; and the spawned counter never exceeds the wave's
configured alien count, an invariant established by startWave and reset
and preserved by update. -/
theorem spawner_spawns_at_most_one :
    ∀ (s : SpawnerSystem) (deltaTime : ℚ) (w : ℕ),
      ((s.update deltaTime).1.aliensSpawned ≤ s.aliensSpawned + 1)
      ∧ ((s.update deltaTime).2 = true →
          (s.update deltaTime).1.aliensSpawned = s.aliensSpawned + 1
          ∧ (s.update deltaTime).1.spawnTimer = 0)
      ∧ ((s.update deltaTime).2 = false →
          (s.update deltaTime).1.aliensSpawned = s.aliensSpawned)
      ∧ (s.aliensSpawned ≤ s.aliensToSpawn →
          (s.update deltaTime).1.aliensSpawned
            ≤ (s.update deltaTime).1.aliensToSpawn)
      ∧ (s.aliensSpawned ≤ s.aliensToSpawn →
          (s.startWave w).aliensSpawned ≤ (s.startWave w).aliensToSpawn)
      ∧ (s.reset.aliensSpawned ≤ s.reset.aliensToSpawn) := by
  intro s dt w
  refine ⟨?_, ?_, ?_, ?_, ?_, ?_⟩
  · simp only [SpawnerSystem.update]
    split_ifs with h1 h2 h3 <;> simp
  · simp only [SpawnerSystem.update]
    split_ifs with h1 h2 h3 <;> simp_all
  · simp only [SpawnerSystem.update]
    split_ifs with h1 h2 h3 <;> simp_all
  · intro hinv
    simp only [SpawnerSystem.update]
    split_ifs with h1 h2 h3 <;> simp_all <;> omega
  · intro hinv
    simp only [SpawnerSystem.startWave]
    split <;> simp_all
  · simp [SpawnerSystem.reset]

theorem spawner_spawns_at_most_one_witness :
    ((SpawnerSystem.update ⟨0, 5, 0, 0, 0, true, false⟩ 100).2 = true
      ∧ ((SpawnerSystem.update ⟨0, 5, 0, 0, 0, true, false⟩ 100).1.aliensSpawned = 0 + 1
        ∧ (SpawnerSystem.update ⟨0, 5, 0, 0, 0, true, false⟩ 100).1.spawnTimer = 0))
    ∧ ((0 : ℕ) ≤ 5
      ∧ (SpawnerSystem.update ⟨0, 5, 0, 0, 0, true, false⟩ 100).1.aliensSpawned
          ≤ (SpawnerSystem.update ⟨0, 5, 0, 0, 0, true, false⟩ 100).1.aliensToSpawn) := by
  have hspawn : (SpawnerSystem.update ⟨0, 5, 0, 0, 0, true, false⟩ 100).2 = true := by
    norm_num [SpawnerSystem.update, WAVES]
  exact ⟨⟨hspawn,
      (spawner_spawns_at_most_one ⟨0, 5, 0, 0, 0, true, false⟩ 100 0).2.1 hspawn⟩,
    ⟨by norm_num,
      (spawner_spawns_at_most_one ⟨0, 5, 0, 0, 0, true, false⟩ 100 0).2.2.2.1
        (by norm_num)⟩⟩

/-- If isWaveComplete returned true, the resulting cached state has
waveComplete set and the wave inactive. -/
theorem isWaveComplete_true_state (s : SpawnerSystem) (n : ℕ)
    (h : (s.isWaveComplete n).1 = true) :
    (s.isWaveComplete n).2.waveComplete = true
    ∧ (s.isWaveComplete n).2.waveActive = false := by
  unfold SpawnerSystem.isWaveComplete at h ⊢
  split_ifs at h ⊢ with h1 h2 h3 <;> simp_all

/-- The completed-and-inactive configuration is preserved by every spawner
call the PLAYING loop makes between waves. -/
theorem runOp_preserves_completed (s : SpawnerSystem) (op : SpawnerOp)
    (hc : s.waveComplete = true) (ha : s.waveActive = false) :
    (s.runOp op).waveComplete = true ∧ (s.runOp op).waveActive = false := by
  cases op with
  | update dt => simp [SpawnerSystem.runOp, SpawnerSystem.update, ha, hc]
  | waveDelay dt => simp [SpawnerSystem.runOp, SpawnerSystem.updateWaveDelay, ha, hc]
  | query n => simp [SpawnerSystem.runOp, SpawnerSystem.isWaveComplete, ha, hc]

theorem run_preserves_completed (ops : List SpawnerOp) :
    ∀ (s : SpawnerSystem), s.waveComplete = true → s.waveActive = false →
      (s.run ops).waveComplete = true ∧ (s.run ops).waveActive = false := by
  induction ops with
  | nil =>
    intro s hc ha
    exact ⟨hc, ha⟩
  | cons op ops ih =>
    intro s hc ha
    rw [SpawnerSystem.run]
    obtain ⟨hc1, ha1⟩ := runOp_preserves_completed s op hc ha
    exact ih _ hc1 ha1

/-- C3: isWaveComplete returns true exactly when the wave is not actively
spawning and either the result is already cached or the entity manager
reports zero live aliens with at least one alien spawned this wave; and
once it has returned true, it keeps returning true across any further
update / updateWaveDelay / isWaveComplete calls (i.e. until startWave or
reset). -/
theorem isWaveComplete_spec :
    ∀ (s : SpawnerSystem) (alienCount : ℕ),
      ((s.isWaveComplete alienCount).1
        = (!s.waveActive
            && (s.waveComplete
                || (decide (alienCount = 0) && decide (0 < s.aliensSpawned)))))
      ∧ ((s.isWaveComplete alienCount).1 = true →
          ∀ (ops : List SpawnerOp) (n : ℕ),
            (((s.isWaveComplete alienCount).2.run ops).isWaveComplete n).1 = true) := by
  intro s alienCount
  constructor
  · unfold SpawnerSystem.isWaveComplete
    split_ifs with h1 h2 h3 <;> simp_all
  · intro h ops n
    obtain ⟨hc, ha⟩ := isWaveComplete_true_state s alienCount h
    obtain ⟨hc1, ha1⟩ := run_preserves_completed ops _ hc ha
    set t := (s.isWaveComplete alienCount).2.run ops with ht
    simp [SpawnerSystem.isWaveComplete, hc1, ha1]

theorem isWaveComplete_spec_witness :
    ((SpawnerSystem.isWaveComplete ⟨0, 5, 5, 0, 0, false, false⟩ 0).1 = true)
    ∧ ((((SpawnerSystem.isWaveComplete ⟨0, 5, 5, 0, 0, false, false⟩ 0).2.run
          [SpawnerOp.update 1, SpawnerOp.waveDelay 1, SpawnerOp.query 3]).isWaveComplete
            7).1 = true) := by
  have h : (SpawnerSystem.isWaveComplete ⟨0, 5, 5, 0, 0, false, false⟩ 0).1 = true := by
    simp [SpawnerSystem.isWaveComplete]
  exact ⟨h,
    (isWaveComplete_spec ⟨0, 5, 5, 0, 0, false, false⟩ 0).2 h
      [SpawnerOp.update 1, SpawnerOp.waveDelay 1, SpawnerOp.query 3] 7⟩

/-- The alien-player collision loop never modifies the scoring system. -/
theorem handleAlienPlayerHits_scoring (apHits : List ℕ) :
    ∀ st : OutcomeState, (handleAlienPlayerHits apHits st).scoring = st.scoring := by
  induction apHits with
  | nil =>
    intro st
    rfl
  | cons a rest ih =>
    intro st
    rw [handleAlienPlayerHits, ih]
    rfl

/-- Score characterization of the projectile-hit loop when the hits
reference pairwise-distinct live aliens: the score rises by the per-kill
value exactly once for each hit whose alien is brought to non-alive by the
single point of damage (i.e. has at most 1 health). -/
theorem handleProjectileHits_score (hits : List (ℕ × ℕ)) :
    ∀ st : OutcomeState, (hits.map Prod.snd).Nodup →
      (∀ h ∈ hits, (st.aliens h.2).alive = true) →
      (handleProjectileHits hits st).scoring.score
        = st.scoring.score
          + POINTS_PER_ALIEN
            * ((hits.filter (fun h => decide ((st.aliens h.2).health ≤ 1))).length : ℤ) := by
  induction hits with
  | nil =>
    intro st _ _
    simp [handleProjectileHits]
  | cons hit rest ih =>
    intro st hnd hal
    rw [handleProjectileHits]
    rw [List.map_cons, List.nodup_cons] at hnd
    obtain ⟨hnotin, hnd1⟩ := hnd
    have halive : (st.aliens hit.2).alive = true := hal hit (List.mem_cons_self _ _)
    have hagree : ∀ h ∈ rest, (projectileHitStep st hit).aliens h.2 = st.aliens h.2 := by
      intro h hh
      have hne : h.2 ≠ hit.2 := by
        intro he
        exact hnotin (he ▸ List.mem_map_of_mem Prod.snd hh)
      simp [projectileHitStep, Function.update_noteq hne]
    have hal1 : ∀ h ∈ rest, ((projectileHitStep st hit).aliens h.2).alive = true := by
      intro h hh
      rw [hagree h hh]
      exact hal h (List.mem_cons_of_mem _ hh)
    rw [ih (projectileHitStep st hit) hnd1 hal1]
    have hfeq : rest.filter
          (fun h => decide (((projectileHitStep st hit).aliens h.2).health ≤ 1))
        = rest.filter (fun h => decide ((st.aliens h.2).health ≤ 1)) := by
      apply List.filter_congr
      intro h hh
      rw [hagree h hh]
    rw [hfeq]
    by_cases hk : (st.aliens hit.2).health ≤ 1
    · have hc : (st.aliens hit.2).health - 1 ≤ 0 := by omega
      have hdead : ((st.aliens hit.2).takeDamage 1).alive = false := by
        simp [Alien.takeDamage, hc]
      have hscore : (projectileHitStep st hit).scoring.score
          = st.scoring.score + POINTS_PER_ALIEN := by
        simp [projectileHitStep, hdead, ScoringSystem.addAlienKillPoints,
          ScoringSystem.addPoints]
      rw [hscore, List.filter_cons]
      simp [decide_eq_true hk]
      ring
    · have hc : ¬ (st.aliens hit.2).health - 1 ≤ 0 := by omega
      have hlive : ((st.aliens hit.2).takeDamage 1).alive = true := by
        simp [Alien.takeDamage, hc, halive]
      have hscore : (projectileHitStep st hit).scoring.score = st.scoring.score := by
        simp [projectileHitStep, hlive]
      rw [hscore, List.filter_cons]
      simp [decide_eq_false hk]

/-- C1 (amended): in the collision-outcome step, a projectile hit awards
the fixed kill points exactly when its one point of damage leaves the
referenced alien non-alive; when the frame's hits reference pairwise
distinct live aliens this awards the points exactly once per killed alien,
while the alien-player collision loop never changes the score (hits that
reference the same alien repeatedly can each award points, see the
counterexample). -/
theorem projectile_kill_scoring :
    ∀ (hits : List (ℕ × ℕ)) (apHits : List ℕ) (st : OutcomeState),
      ((hits.map Prod.snd).Nodup →
        (∀ h ∈ hits, (st.aliens h.2).alive = true) →
        (handleProjectileHits hits st).scoring.score
          = st.scoring.score
            + POINTS_PER_ALIEN
              * ((hits.filter (fun h => decide ((st.aliens h.2).health ≤ 1))).length : ℤ))
      ∧ ((handleAlienPlayerHits apHits st).scoring = st.scoring)
      ∧ ((handleCollisions hits apHits st).scoring
          = (handleProjectileHits hits st).scoring) :=
  fun hits apHits st =>
    ⟨handleProjectileHits_score hits st, handleAlienPlayerHits_scoring apHits st,
      handleAlienPlayerHits_scoring apHits (handleProjectileHits hits st)⟩

theorem projectile_kill_scoring_witness :
    (([(0, 1), (2, 3)] : List (ℕ × ℕ)).map Prod.snd).Nodup
    ∧ (handleProjectileHits [(0, 1), (2, 3)] twoHitsStore).scoring.score
        = twoHitsStore.scoring.score
          + POINTS_PER_ALIEN
            * ((([(0, 1), (2, 3)] : List (ℕ × ℕ)).filter
                (fun h => decide ((twoHitsStore.aliens h.2).health ≤ 1))).length : ℤ) :=
  ⟨by decide,
    (projectile_kill_scoring [(0, 1), (2, 3)] [] twoHitsStore).1 (by decide) (by decide)⟩

/-- C1 counterexample: two projectile hits in the same frame reference the
same alien (id 5, with the configured 1 health).  The single alien death
awards the kill points twice: the score rises by 2 * POINTS_PER_ALIEN,
strictly more than one per-kill value, although only one alien went from
alive to non-alive. -/
theorem projectile_double_award_same_alien :
    (handleProjectileHits [(0, 5), (1, 5)] twoHitsStore).scoring.score
        = 2 * POINTS_PER_ALIEN
    ∧ ((handleProjectileHits [(0, 5), (1, 5)] twoHitsStore).aliens 5).alive = false
    ∧ (twoHitsStore.aliens 5).alive = true
    ∧ ¬ ((handleProjectileHits [(0, 5), (1, 5)] twoHitsStore).scoring.score
          ≤ twoHitsStore.scoring.score + POINTS_PER_ALIEN) := by
  refine ⟨by decide, by decide, by decide, by decide⟩

/-- Scaling a vector by a nonnegative factor scales its Euclidean length. -/
theorem Vec3R.length_scale (v : Vec3R) (c : ℝ) (hc : 0 ≤ c) :
    (v.scale c).length = c * v.length := by
  simp only [Vec3R.length, Vec3R.scale]
  rw [show (v.x * c) ^ 2 + (v.y * c) ^ 2 + (v.z * c) ^ 2
      = c ^ 2 * (v.x ^ 2 + v.y ^ 2 + v.z ^ 2) by ring]
  rw [Real.sqrt_mul (sq_nonneg c), Real.sqrt_sq hc]

/-- A vector has Euclidean length zero exactly when it is the zero vector. -/
theorem Vec3R.length_eq_zero (v : Vec3R) : v.length = 0 ↔ v = Vec3R.zero := by
  constructor
  · intro h
    rw [Vec3R.length, Real.sqrt_eq_zero'] at h
    have hx : v.x = 0 := by nlinarith [sq_nonneg v.x, sq_nonneg v.y, sq_nonneg v.z]
    have hy : v.y = 0 := by nlinarith [sq_nonneg v.x, sq_nonneg v.y, sq_nonneg v.z]
    have hz : v.z = 0 := by nlinarith [sq_nonneg v.x, sq_nonneg v.y, sq_nonneg v.z]
    cases v
    simp only [Vec3R.zero, Vec3R.mk.injEq]
    exact ⟨hx, hy, hz⟩
  · intro h
    rw [h]
    simp [Vec3R.length, Vec3R.zero]

/-- Babylon.js normalization is invariant under positive scaling of a
nonzero vector. -/
theorem Vec3R.normalize_scale (v : Vec3R) (c : ℝ) (hv : v ≠ Vec3R.zero) (hc : 0 < c) :
    (v.scale c).normalize = v.normalize := by
  have hlen : v.length ≠ 0 := fun h => hv ((Vec3R.length_eq_zero v).mp h)
  have hls : (v.scale c).length = c * v.length := Vec3R.length_scale v c hc.le
  unfold Vec3R.normalize
  rw [hls, if_neg (mul_ne_zero hc.ne' hlen), if_neg hlen]
  simp only [Vec3R.scale, Vec3R.mk.injEq]
  refine ⟨?_, ?_, ?_⟩ <;>
    · field_simp
      ring

/-- C4 (amended): when the distance from the alien to its target exceeds
the 0.1 epsilon, Alien.update moves the alien by
normalize(target - position) * speed * deltaTime; at or below the epsilon
the alien's position is left unchanged (it is not snapped to the target). -/
theorem alien_update_characterization :
    ∀ (a : AlienR) (deltaTime : ℝ),
      ((a.targetPosition.sub a.pos).length > 1/10 →
        (a.update deltaTime).pos
          = a.pos.add ((a.targetPosition.sub a.pos).normalize.scale (a.speed * deltaTime)))
      ∧ ((a.targetPosition.sub a.pos).length ≤ 1/10 →
        (a.update deltaTime).pos = a.pos) := by
  intro a dt
  constructor
  · intro h
    simp only [AlienR.update]
    rw [if_pos h]
  · intro h
    simp only [AlienR.update]
    rw [if_neg (not_lt.mpr h)]

theorem alien_update_characterization_witness :
    (Vec3R.length (Vec3R.sub ⟨3, 4, 0⟩ ⟨0, 0, 0⟩) > 1/10
      ∧ (AlienR.update ⟨⟨0, 0, 0⟩, 2, ⟨3, 4, 0⟩⟩ 1).pos
          = Vec3R.add ⟨0, 0, 0⟩
              (Vec3R.scale (Vec3R.normalize (Vec3R.sub ⟨3, 4, 0⟩ ⟨0, 0, 0⟩)) (2 * 1)))
    ∧ (Vec3R.length (Vec3R.sub ⟨0, 0, 0⟩ ⟨1/20, 0, 0⟩) ≤ 1/10
      ∧ (AlienR.update ⟨⟨1/20, 0, 0⟩, 2, ⟨0, 0, 0⟩⟩ 1).pos = (⟨1/20, 0, 0⟩ : Vec3R)) := by
  have h5 : Vec3R.length (Vec3R.sub ⟨3, 4, 0⟩ ⟨0, 0, 0⟩) = 5 := by
    simp only [Vec3R.length, Vec3R.sub]
    rw [show ((3:ℝ) - 0) ^ 2 + ((4:ℝ) - 0) ^ 2 + ((0:ℝ) - 0) ^ 2 = 5 ^ 2 by norm_num]
    exact Real.sqrt_sq (by norm_num)
  have h20 : Vec3R.length (Vec3R.sub ⟨0, 0, 0⟩ ⟨1/20, 0, 0⟩) = 1/20 := by
    simp only [Vec3R.length, Vec3R.sub]
    rw [show ((0:ℝ) - 1/20) ^ 2 + ((0:ℝ) - 0) ^ 2 + ((0:ℝ) - 0) ^ 2 = (1/20) ^ 2 by norm_num]
    exact Real.sqrt_sq (by norm_num)
  have hgt : Vec3R.length (Vec3R.sub ⟨3, 4, 0⟩ ⟨0, 0, 0⟩) > 1/10 := by
    rw [h5]
    norm_num
  have hle : Vec3R.length (Vec3R.sub ⟨0, 0, 0⟩ ⟨1/20, 0, 0⟩) ≤ 1/10 := by
    rw [h20]
    norm_num
  exact ⟨⟨hgt, (alien_update_characterization ⟨⟨0, 0, 0⟩, 2, ⟨3, 4, 0⟩⟩ 1).1 hgt⟩,
    ⟨hle, (alien_update_characterization ⟨⟨1/20, 0, 0⟩, 2, ⟨0, 0, 0⟩⟩ 1).2 hle⟩⟩

/-- C4 counterexample: an alien at (1/20, 0, 0) whose target is the origin
is within the 0.1 epsilon (distance 1/20), and Alien.update leaves its
position at (1/20, 0, 0) - which is not the target position. -/
theorem alien_holds_position_below_epsilon :
    (AlienR.update ⟨⟨1/20, 0, 0⟩, 3, ⟨0, 0, 0⟩⟩ 1).pos = (⟨1/20, 0, 0⟩ : Vec3R)
    ∧ ((⟨1/20, 0, 0⟩ : Vec3R) ≠ (⟨0, 0, 0⟩ : Vec3R)) := by
  have h20 : Vec3R.length (Vec3R.sub ⟨0, 0, 0⟩ ⟨1/20, 0, 0⟩) = 1/20 := by
    simp only [Vec3R.length, Vec3R.sub]
    rw [show ((0:ℝ) - 1/20) ^ 2 + ((0:ℝ) - 0) ^ 2 + ((0:ℝ) - 0) ^ 2 = (1/20) ^ 2 by norm_num]
    exact Real.sqrt_sq (by norm_num)
  constructor
  · have hng : ¬ (Vec3R.length (Vec3R.sub ⟨0, 0, 0⟩ ⟨1/20, 0, 0⟩) > 1/10) := by
      rw [h20]
      norm_num
    simp only [AlienR.update]
    rw [if_neg hng]
  · intro h
    have hx := congrArg Vec3R.x h
    norm_num at hx

/-- C10: the Projectile constructor normalizes the supplied direction, so
for every nonzero direction vector and positive factor, constructing with
the scaled vector stores the same direction as constructing with the
vector itself, and one update moves the projectile from its spawn position
by exactly PROJECTILE_SPEED * deltaTime along the normalized (unscaled)
direction - independent of the input vector's magnitude. -/
theorem projectile_direction_scaling_invariance :
    ∀ (v : Vec3R) (c : ℝ) (position : Vec3R) (deltaTime : ℝ),
      v ≠ Vec3R.zero → 0 < c →
      ((ProjectileR.create position (v.scale c)).direction
          = (ProjectileR.create position v).direction)
      ∧ (((ProjectileR.create position (v.scale c)).update deltaTime).pos
          = position.add (v.normalize.scale (PROJECTILE_SPEED_R * deltaTime))) := by
  intro v c position dt hv hc
  have hn : (v.scale c).normalize = v.normalize := Vec3R.normalize_scale v c hv hc
  constructor
  · show (v.scale c).normalize = v.normalize
    exact hn
  · show Vec3R.add position (((v.scale c).normalize).scale (PROJECTILE_SPEED_R * dt))
        = Vec3R.add position (v.normalize.scale (PROJECTILE_SPEED_R * dt))
    rw [hn]

theorem projectile_direction_scaling_invariance_witness :
    ((⟨3, 4, 0⟩ : Vec3R) ≠ Vec3R.zero ∧ (0:ℝ) < 2)
    ∧ (ProjectileR.create ⟨0, 0, 0⟩ (Vec3R.scale ⟨3, 4, 0⟩ 2)).direction
        = (ProjectileR.create ⟨0, 0, 0⟩ ⟨3, 4, 0⟩).direction
    ∧ ((ProjectileR.create ⟨0, 0, 0⟩ (Vec3R.scale ⟨3, 4, 0⟩ 2)).update 1).pos
        = Vec3R.add ⟨0, 0, 0⟩
            (Vec3R.scale (Vec3R.normalize ⟨3, 4, 0⟩) (PROJECTILE_SPEED_R * 1)) := by
  have hvne : (⟨3, 4, 0⟩ : Vec3R) ≠ Vec3R.zero := by
    intro h
    have hx := congrArg Vec3R.x h
    simp only [Vec3R.zero] at hx
    norm_num at hx
  exact ⟨⟨hvne, by norm_num⟩,
    (projectile_direction_scaling_invariance ⟨3, 4, 0⟩ 2 ⟨0, 0, 0⟩ 1 hvne (by norm_num)).1,
    (projectile_direction_scaling_invariance ⟨3, 4, 0⟩ 2 ⟨0, 0, 0⟩ 1 hvne (by norm_num)).2⟩

end MMGame
